import Mathlib

/-
Verification of the multi-modal fusion engine
(backend/app/ml/fusion_engine.py) against its specification.

The Python code is shallowly embedded over exact rationals: every float
becomes a rational number, every optional dictionary field becomes an
Option, and a dictionary-valued argument that the source tests for
truthiness carries an explicit truthy flag (a supplied empty dict is
truthy = false).  Fallible operations (float division by zero raised by
the source) are modelled with Option results.
-/

namespace FusionSpec

/-- Modality tags, mirroring the ModalityType enum (TEXT, AUDIO, VIDEO). -/
inductive ModalityType where
  | text
  | audio
  | video
deriving DecidableEq, Repr

/-- Fusion strategies, mirroring the FusionStrategy enum. -/
inductive FusionStrategy where
  | weightedAverage
  | maximum
  | minimum
  | voting
  | learned
deriving DecidableEq, Repr

/-- Uniform per-modality triple produced by the extractors: the dict
with keys score, confidence, weight. -/
structure MScore where
  score : ℚ
  confidence : ℚ
  weight : ℚ
deriving DecidableEq, Repr

/-- Weight dictionary: each modality key is optionally present.  Keys
other than the three modalities are not modelled (no claim touches
them). -/
structure WeightConfig where
  text : Option ℚ
  audio : Option ℚ
  video : Option ℚ
deriving DecidableEq, Repr

/-- Sum of the values present in the weight dictionary
(`sum(self.weights.values())` in the source). -/
def WeightConfig.valuesSum (w : WeightConfig) : ℚ :=
  w.text.getD 0 + w.audio.getD 0 + w.video.getD 0

/-- Apply a function to every present weight value, as the normalizing
dict comprehension does. -/
def WeightConfig.mapVals (w : WeightConfig) (f : ℚ → ℚ) : WeightConfig :=
  ⟨w.text.map f, w.audio.map f, w.video.map f⟩

/-- Default weights from the constructor: text 0.45, audio 0.30,
video 0.25. -/
def defaultWeights : WeightConfig :=
  ⟨some 0.45, some 0.30, some 0.25⟩

/-- Exact model of `np.isclose(s, 1.0)` with the numpy defaults
rtol = 1e-5, atol = 1e-8: the tolerance is 1e-8 + 1e-5 * 1. -/
def npIsCloseOne (s : ℚ) : Bool :=
  |s - 1| ≤ 1001 / 100000000

/-- The engine: strategy, (already validated and possibly normalized)
weights, and the confidence threshold. -/
structure MultiModalFusionEngine where
  strategy : FusionStrategy
  weights : WeightConfig
  confidenceThreshold : ℚ
deriving DecidableEq, Repr

/-- Effective weight dictionary chosen by the constructor
(`self.weights = weights or {...}`): None, and likewise an empty
(falsy) dict — the all-None record — select the defaults. -/
def effectiveWeights (weights : Option WeightConfig) : WeightConfig :=
  match weights with
  | none => defaultWeights
  | some cfg => if cfg = ⟨none, none, none⟩ then defaultWeights else cfg

/-- Constructor `MultiModalFusionEngine.__init__`.  If the value sum of
the effective weights is not np-close to 1 the weights are renormalized
by dividing each value by the sum; when that sum is zero, the division
raises ZeroDivisionError, modelled as none. -/
def mkEngine (strategy : FusionStrategy) (weights : Option WeightConfig)
    (confidenceThreshold : ℚ) : Option MultiModalFusionEngine :=
  let w := effectiveWeights weights
  let s := w.valuesSum
  if npIsCloseOne s then some ⟨strategy, w, confidenceThreshold⟩
  else if s = 0 then none
  else some ⟨strategy, w.mapVals (· / s), confidenceThreshold⟩

/-! Payload records, mirroring the §6 input contracts.  Dictionary
fields read with `.get` become Option fields; the documented defaults
are applied at the use site exactly as in the source.  A nested block
that the source tests for truthiness (ml_prediction,
deepfake_detection, sentiment_analysis, the payload itself) is Option
valued, none covering both an absent and a falsy (empty) block. -/

/-- Nested ml_prediction block of a text payload.  The feature counts
live in the nested features dict, read with default 0. -/
structure MLPrediction where
  fakeProbability : Option ℚ
  confidence : Option ℚ
  clickbaitIndicators : Option ℕ
  credibilityMarkers : Option ℕ
deriving DecidableEq, Repr

/-- Text analyzer payload.  manipulationIndicatorCount is the length of
the manipulation_indicators list (only its length is ever used);
sentimentCompound is the compound value of a truthy sentiment_analysis
block (a block without the compound key is some 0, matching the
`.get` default). -/
structure TextPayload where
  truthy : Bool
  mlPrediction : Option MLPrediction
  manipulationIndicatorCount : ℕ
  sentimentCompound : Option ℚ
deriving DecidableEq, Repr

/-- Nested deepfake_detection block shared by audio and video. -/
structure DeepfakeBlock where
  authenticityScore : Option ℚ
  confidence : Option ℚ
  indicators : List String
deriving DecidableEq, Repr

/-- Audio analyzer payload with the fallback quality fields (defaults
snr_db 20, clipping_percentage 0). -/
structure AudioPayload where
  truthy : Bool
  deepfakeDetection : Option DeepfakeBlock
  snrDb : Option ℚ
  clippingPercentage : Option ℚ
deriving DecidableEq, Repr

/-- Video analyzer payload with the fallback fields
(quality_metrics.sharpness default 0, scene_change_count default 0,
video_info.duration default 1). -/
structure VideoPayload where
  truthy : Bool
  deepfakeDetection : Option DeepfakeBlock
  sharpness : Option ℚ
  sceneChangeCount : Option ℚ
  duration : Option ℚ
deriving DecidableEq, Repr

/-- Substring occurrence test: pat occurs in s.  Used for the
`"severe" in i.lower()` style membership checks of the source. -/
def containsSub (s pat : String) : Bool :=
  1 < (s.splitOn pat).length

/-- Indicator text mentions severe or extreme (case-insensitive). -/
def isSevereIndicator (s : String) : Bool :=
  containsSub s.toLower "severe" || containsSub s.toLower "extreme"

/-- Indicator text mentions edge (case-insensitive). -/
def isEdgeIndicator (s : String) : Bool :=
  containsSub s.toLower "edge"

/-- `_extract_text_score`: model-based branch when a truthy
ml_prediction block is present, otherwise the manipulation-indicator
fallback. -/
def extractTextScore (e : MultiModalFusionEngine) (t : TextPayload) : MScore :=
  match t.mlPrediction with
  | some ml =>
      let fakeProb := ml.fakeProbability.getD 0.5
      let credibility := (1 - fakeProb) * 100
      let confidence := ml.confidence.getD 0.5
      let confidence :=
        if 3 < ml.clickbaitIndicators.getD 0 then min (confidence + 0.1) 0.95
        else confidence
      let credibility :=
        if 2 < ml.credibilityMarkers.getD 0 then min (credibility + 5) 100
        else credibility
      ⟨credibility, confidence, e.weights.text.getD 0.33⟩
  | none =>
      let m : ℚ := t.manipulationIndicatorCount
      let manipulationPenalty := m * 12
      let manipulationPenalty :=
        match t.sentimentCompound with
        | some c => if 0.8 < |c| then manipulationPenalty + 8 else manipulationPenalty
        | none => manipulationPenalty
      let credibility := max 10 (65 - manipulationPenalty)
      let confidence := 0.55 + min (m * 0.05) 0.25
      ⟨credibility, confidence, e.weights.text.getD 0.33⟩

/-- `_extract_audio_score`: deepfake branch with the severe/extreme
confidence boost, otherwise the quality fallback. -/
def extractAudioScore (e : MultiModalFusionEngine) (a : AudioPayload) : MScore :=
  match a.deepfakeDetection with
  | some df =>
      let authenticity := df.authenticityScore.getD 50
      let confidence := df.confidence.getD 0.5
      let severeCount : ℚ := (df.indicators.filter isSevereIndicator).length
      let confidence :=
        if 0 < severeCount then min (confidence + severeCount * 0.08) 0.92
        else confidence
      ⟨authenticity, confidence, e.weights.audio.getD 0.33⟩
  | none =>
      let snr := a.snrDb.getD 20
      let clipping := a.clippingPercentage.getD 0
      let authenticity : ℚ := 70
      let authenticity := if snr < 15 then authenticity - 15 else authenticity
      let authenticity := if 50 < snr then authenticity - 10 else authenticity
      let authenticity := if 1 < clipping then authenticity - 10 else authenticity
      ⟨authenticity, 0.5, e.weights.audio.getD 0.33⟩

/-- `_extract_video_score`: deepfake branch with severe and edge
boosts, otherwise the scene-rate and sharpness fallback. -/
def extractVideoScore (e : MultiModalFusionEngine) (v : VideoPayload) : MScore :=
  match v.deepfakeDetection with
  | some df =>
      let authenticity := df.authenticityScore.getD 50
      let confidence := df.confidence.getD 0.5
      let severeCount : ℚ := (df.indicators.filter isSevereIndicator).length
      let edgeCount : ℚ := (df.indicators.filter isEdgeIndicator).length
      let confidence :=
        if 0 < severeCount then min (confidence + severeCount * 0.07) 0.88
        else confidence
      let confidence :=
        if 0 < edgeCount then min (confidence + 0.10) 0.90
        else confidence
      ⟨authenticity, confidence, e.weights.video.getD 0.33⟩
  | none =>
      let sceneCount := v.sceneChangeCount.getD 0
      let duration := v.duration.getD 1
      let authenticity : ℚ := 70
      let sceneRate := sceneCount / max duration 1
      let authenticity := if 5 < sceneRate then authenticity - 15 else authenticity
      let authenticity := if v.sharpness.getD 0 < 30 then authenticity - 10 else authenticity
      ⟨authenticity, 0.5, e.weights.video.getD 0.33⟩

/-! Fusion strategies over the list of available modality triples
(dict iteration preserves the text, audio, video insertion order). -/

/-- Sum of the weights of the present modalities
(`available_weight_sum`). -/
def availSum (ms : List MScore) : ℚ :=
  (ms.map fun m => m.weight).sum

/-- Weighted, renormalized combination of one field over the present
modalities: the generator-sum of f m * weight / available_weight_sum. -/
def weightedRatio (ms : List MScore) (f : MScore → ℚ) : ℚ :=
  (ms.map fun m => f m * m.weight / availSum ms).sum

/-- The weighted_score local of `_weighted_average_fusion`. -/
def rawWeightedScore (ms : List MScore) : ℚ :=
  weightedRatio ms fun m => m.score

/-- The weighted_confidence local of `_weighted_average_fusion`, before
the cross-modal consistency adjustment. -/
def rawWeightedConfidence (ms : List MScore) : ℚ :=
  weightedRatio ms fun m => m.confidence

/-- Population variance of a list, i.e. the square of `np.std`.  The
source compares np.std with 15 and 35; since both sides are
nonnegative, std < 15 is encoded as variance < 15 * 15 = 225 and
std > 35 as variance > 35 * 35 = 1225. -/
def scoreVariance (xs : List ℚ) : ℚ :=
  let n : ℚ := xs.length
  let mean := xs.sum / n
  (xs.map fun x => (x - mean) * (x - mean)).sum / n

/-- `_weighted_average_fusion` with its cross-modal consistency
adjustment (applied only when more than one modality is present). -/
def weightedAverageFusion (ms : List MScore) : ℚ × ℚ :=
  let weightedScore := rawWeightedScore ms
  let weightedConfidence := rawWeightedConfidence ms
  if 1 < ms.length then
    let v := scoreVariance (ms.map fun m => m.score)
    if v < 225 then (weightedScore, min (weightedConfidence + 0.10) 0.95)
    else if 1225 < v then (weightedScore, max (weightedConfidence - 0.10) 0.35)
    else (weightedScore, weightedConfidence)
  else (weightedScore, weightedConfidence)

/-- First element carrying the maximal score (`np.argmax` returns the
first occurrence of the maximum). -/
def argmaxScore : List MScore → Option MScore
  | [] => none
  | m :: ms =>
      match argmaxScore ms with
      | none => some m
      | some m2 => if m.score < m2.score then some m2 else some m

/-- First element carrying the minimal score (`np.argmin`). -/
def argminScore : List MScore → Option MScore
  | [] => none
  | m :: ms =>
      match argminScore ms with
      | none => some m
      | some m2 => if m2.score < m.score then some m2 else some m

/-- `_maximum_fusion`: score and confidence of the first highest-score
modality.  The empty case is unreachable from fuse. -/
def maximumFusion (ms : List MScore) : ℚ × ℚ :=
  match argmaxScore ms with
  | some m => (m.score, m.confidence)
  | none => (0, 0)

/-- `_minimum_fusion`: score and confidence of the first lowest-score
modality. -/
def minimumFusion (ms : List MScore) : ℚ × ℚ :=
  match argminScore ms with
  | some m => (m.score, m.confidence)
  | none => (0, 0)

/-- `_voting_fusion`: binary votes (score strictly above 50 is a real
vote), fixed scores 75 / 25 / 50, and the arithmetic mean of the
confidences. -/
def votingFusion (ms : List MScore) : ℚ × ℚ :=
  let realVotes := (ms.filter fun m => 50 < m.score).length
  let fakeVotes := ms.length - realVotes
  let finalScore : ℚ :=
    if fakeVotes < realVotes then 75
    else if realVotes < fakeVotes then 25
    else 50
  let avgConfidence := (ms.map fun m => m.confidence).sum / (ms.length : ℚ)
  (finalScore, avgConfidence)

/-- Strategy dispatch of fuse (the trailing else, which also receives
the learned tag, falls back to the weighted average). -/
def applyStrategy (strategy : FusionStrategy) (ms : List MScore) : ℚ × ℚ :=
  match strategy with
  | .weightedAverage => weightedAverageFusion ms
  | .maximum => maximumFusion ms
  | .minimum => minimumFusion ms
  | .voting => votingFusion ms
  | .learned => weightedAverageFusion ms

/-- `_determine_verdict`: confidence gate first, then the score
thresholds. -/
def determineVerdict (confidenceThreshold score confidence : ℚ) : String :=
  if confidence < confidenceThreshold then "UNCERTAIN"
  else if 70 ≤ score then "REAL"
  else if score ≤ 30 then "FAKE"
  else "UNCERTAIN"

/-! Explanation building.  The numeric text renderings (.1f and .2%)
are reproduced over exact rationals; the tie behaviour of binary
floating point formatting is not modelled (no claim concerns the
summary text). -/

/-- Render a rational with one decimal digit, rounding to nearest. -/
def fmt1 (q : ℚ) : String :=
  let n : ℤ := round (q * 10)
  let sign := if n < 0 then "-" else ""
  let a := n.natAbs
  sign ++ toString (a / 10) ++ "." ++ toString (a % 10)

/-- Render a rational as a percentage with two decimal digits. -/
def fmtPct (q : ℚ) : String :=
  let n : ℤ := round (q * 10000)
  let sign := if n < 0 then "-" else ""
  let a := n.natAbs
  let frac := a % 100
  sign ++ toString (a / 100) ++ "." ++ (if frac < 10 then "0" else "") ++
    toString frac ++ "%"

/-- Capitalized modality display name (modality.value.capitalize()). -/
def modalityDisplay : ModalityType → String
  | .text => "Text"
  | .audio => "Audio"
  | .video => "Video"

/-- Structured explanation record. -/
structure Explanation where
  summary : String
  verdict : String
  confidenceLevel : String
  recommendation : String
deriving DecidableEq, Repr

/-- Confidence band of `_build_explanation`. -/
def confidenceLevelOf (confidence : ℚ) : String :=
  if 0.8 ≤ confidence then "Very High"
  else if 0.6 ≤ confidence then "High"
  else if 0.4 ≤ confidence then "Medium"
  else "Low"

/-- One per-modality line of the summary. -/
def modalityLine (p : ModalityType × MScore) : String :=
  "- " ++ modalityDisplay p.1 ++ ": " ++ fmt1 p.2.score ++ "/100 " ++
    "(confidence: " ++ fmtPct p.2.confidence ++ ")\n"

/-- `_build_explanation`. -/
def buildExplanation (score confidence : ℚ) (verdict : String)
    (modalities : List (ModalityType × MScore)) : Explanation :=
  let confidenceLevel := confidenceLevelOf confidence
  let summary :=
    "Overall Assessment: " ++ verdict ++ " (Score: " ++ fmt1 score ++ "/100)\n" ++
    "Confidence Level: " ++ confidenceLevel ++ " (" ++ fmtPct confidence ++ ")\n\n" ++
    "Analysis by Modality:\n" ++
    String.join (modalities.map modalityLine)
  let recommendation :=
    if verdict = "FAKE" then
      "This content shows significant indicators of manipulation or falsehood. Exercise caution and verify from reliable sources."
    else if verdict = "REAL" then
      "This content appears credible with few indicators of manipulation. However, always verify important claims."
    else
      "Analysis is inconclusive. Additional verification recommended before drawing conclusions."
  ⟨summary, verdict, confidenceLevel, recommendation⟩

/-- Result record returned by fuse.  The raw payloads of the
detailed_analysis dict are kept as the three Option fields; the
modality_contributions dict is the insertion-ordered association
list (its string keys are abstracted to the modality tags). -/
structure FusionResult where
  finalScore : ℚ
  finalVerdict : String
  confidence : ℚ
  modalityContributions : List (ModalityType × MScore)
  explanation : Explanation
  detailedText : Option TextPayload
  detailedAudio : Option AudioPayload
  detailedVideo : Option VideoPayload
  fusionStrategy : FusionStrategy
  weightsUsed : WeightConfig
deriving DecidableEq, Repr

/-- `_no_data_result`: the fixed neutral result (detailed_analysis is
the empty dict there, hence the none fields). -/
def noDataResult (e : MultiModalFusionEngine) : FusionResult where
  finalScore := 50
  finalVerdict := "UNCERTAIN"
  confidence := 0
  modalityContributions := []
  explanation :=
    ⟨"No analysis data available", "UNCERTAIN", "None",
      "Unable to analyze - no data provided"⟩
  detailedText := none
  detailedAudio := none
  detailedVideo := none
  fusionStrategy := e.strategy
  weightsUsed := e.weights

/-- Collection of the available modalities: a payload enters iff it was
supplied and is truthy (`if text_result:` is false both for None and
for an empty dict). -/
def modalitiesOf (e : MultiModalFusionEngine) (t : Option TextPayload)
    (a : Option AudioPayload) (v : Option VideoPayload) :
    List (ModalityType × MScore) :=
  (match t with
    | some tp => if tp.truthy then [(ModalityType.text, extractTextScore e tp)] else []
    | none => []) ++
  (match a with
    | some ap => if ap.truthy then [(ModalityType.audio, extractAudioScore e ap)] else []
    | none => []) ++
  (match v with
    | some vp => if vp.truthy then [(ModalityType.video, extractVideoScore e vp)] else []
    | none => [])

/-- `fuse`: collect the available modalities, dispatch the strategy,
classify the verdict, build the explanation and assemble the result;
with no available modality, return the fixed neutral result. -/
def fuse (e : MultiModalFusionEngine) (t : Option TextPayload)
    (a : Option AudioPayload) (v : Option VideoPayload) : FusionResult :=
  let ms := modalitiesOf e t a v
  if ms = [] then noDataResult e
  else
    let fused := applyStrategy e.strategy (ms.map fun p => p.2)
    let verdict := determineVerdict e.confidenceThreshold fused.1 fused.2
    { finalScore := fused.1
      finalVerdict := verdict
      confidence := fused.2
      modalityContributions := ms
      explanation := buildExplanation fused.1 fused.2 verdict ms
      detailedText := t
      detailedAudio := a
      detailedVideo := v
      fusionStrategy := e.strategy
      weightsUsed := e.weights }

/-- `get_fusion_engine`: the module-level singleton accessor.  The
global `_fusion_engine_instance` is passed and returned explicitly; a
construction is attempted (with the default confidence threshold 0.5)
only when no instance exists or force_reload is set. -/
def getFusionEngine (inst : Option MultiModalFusionEngine)
    (strategy : FusionStrategy) (weights : Option WeightConfig)
    (forceReload : Bool) :
    Option (MultiModalFusionEngine × Option MultiModalFusionEngine) :=
  match inst, forceReload with
  | some e, false => some (e, some e)
  | _, _ => (mkEngine strategy weights 0.5).map fun e => (e, some e)

/-! Input contracts of §6 and weight-positivity, as decidable boolean
predicates. -/

/-- Optional value is either absent or within the closed range. -/
def inRangeB (lo hi : ℚ) (o : Option ℚ) : Bool :=
  match o with
  | none => true
  | some x => decide (lo ≤ x) && decide (x ≤ hi)

/-- Text payload contract: a supplied fake probability and model
confidence lie in the unit interval. -/
def textContractOK : Option TextPayload → Bool
  | none => true
  | some t =>
    match t.mlPrediction with
    | none => true
    | some ml => inRangeB 0 1 ml.fakeProbability && inRangeB 0 1 ml.confidence

/-- Deepfake block contract: a supplied authenticity score lies in
[0, 100] and a supplied confidence in [0, 1]. -/
def dfContractOK : Option DeepfakeBlock → Bool
  | none => true
  | some df => inRangeB 0 100 df.authenticityScore && inRangeB 0 1 df.confidence

/-- Audio payload contract. -/
def audioContractOK : Option AudioPayload → Bool
  | none => true
  | some a => dfContractOK a.deepfakeDetection

/-- Video payload contract. -/
def videoContractOK : Option VideoPayload → Bool
  | none => true
  | some v => dfContractOK v.deepfakeDetection

/-- Optional value is absent or strictly positive. -/
def optPosB : Option ℚ → Bool
  | none => true
  | some x => decide (0 < x)

/-- Every weight present in the configuration is strictly positive. -/
def weightsPos (w : WeightConfig) : Bool :=
  optPosB w.text && optPosB w.audio && optPosB w.video

/-- Engine value matching the default construction (default strategy,
default weights, threshold 0.5). -/
def engDefault : MultiModalFusionEngine :=
  ⟨.weightedAverage, defaultWeights, 0.5⟩

/-! Helper lemmas. -/

lemma inRangeB_getD (lo hi : ℚ) {o : Option ℚ} (d : ℚ)
    (h : inRangeB lo hi o = true) (hd1 : lo ≤ d) (hd2 : d ≤ hi) :
    lo ≤ o.getD d ∧ o.getD d ≤ hi := by
  cases o with
  | none => exact ⟨hd1, hd2⟩
  | some x => simpa [inRangeB] using h

lemma optPosB_getD {o : Option ℚ} {d : ℚ} (h : optPosB o = true) (hd : 0 < d) :
    0 < o.getD d := by
  cases o with
  | none => exact hd
  | some x => simpa [optPosB] using h

lemma availSum_nonneg {ms : List MScore} (hw : ∀ m ∈ ms, 0 ≤ m.weight) :
    0 ≤ availSum ms := by
  induction ms with
  | nil => simp [availSum]
  | cons m l ih =>
      have h1 := hw m (List.mem_cons_self m l)
      have h2 : 0 ≤ availSum l := ih fun x hx => hw x (List.mem_cons_of_mem m hx)
      simp only [availSum, List.map_cons, List.sum_cons] at *
      linarith

lemma availSum_pos {ms : List MScore} (hne : ms ≠ [])
    (hw : ∀ m ∈ ms, 0 < m.weight) : 0 < availSum ms := by
  cases ms with
  | nil => exact absurd rfl hne
  | cons m l =>
      have h1 := hw m (List.mem_cons_self m l)
      have h2 : 0 ≤ availSum l :=
        availSum_nonneg fun x hx => le_of_lt (hw x (List.mem_cons_of_mem m hx))
      simp only [availSum, List.map_cons, List.sum_cons] at *
      linarith

lemma sum_map_div (ms : List MScore) (g : MScore → ℚ) (c : ℚ) :
    (ms.map fun m => g m / c).sum = (ms.map g).sum / c := by
  induction ms with
  | nil => simp
  | cons m l ih => simp [ih, add_div]

lemma sum_weighted_le {ms : List MScore} (f : MScore → ℚ) (hi : ℚ)
    (hw : ∀ m ∈ ms, 0 ≤ m.weight) (hf : ∀ m ∈ ms, f m ≤ hi) :
    (ms.map fun m => f m * m.weight).sum ≤ hi * availSum ms := by
  induction ms with
  | nil => simp [availSum]
  | cons m l ih =>
      have h1 : f m * m.weight ≤ hi * m.weight :=
        mul_le_mul_of_nonneg_right (hf m (List.mem_cons_self m l))
          (hw m (List.mem_cons_self m l))
      have h2 := ih (fun x hx => hw x (List.mem_cons_of_mem m hx))
        (fun x hx => hf x (List.mem_cons_of_mem m hx))
      simp only [availSum, List.map_cons, List.sum_cons] at *
      nlinarith

lemma sum_weighted_ge {ms : List MScore} (f : MScore → ℚ) (lo : ℚ)
    (hw : ∀ m ∈ ms, 0 ≤ m.weight) (hf : ∀ m ∈ ms, lo ≤ f m) :
    lo * availSum ms ≤ (ms.map fun m => f m * m.weight).sum := by
  induction ms with
  | nil => simp [availSum]
  | cons m l ih =>
      have h1 : lo * m.weight ≤ f m * m.weight :=
        mul_le_mul_of_nonneg_right (hf m (List.mem_cons_self m l))
          (hw m (List.mem_cons_self m l))
      have h2 := ih (fun x hx => hw x (List.mem_cons_of_mem m hx))
        (fun x hx => hf x (List.mem_cons_of_mem m hx))
      simp only [availSum, List.map_cons, List.sum_cons] at *
      nlinarith

lemma weightedRatio_bounds {ms : List MScore} (f : MScore → ℚ) (lo hi : ℚ)
    (hne : ms ≠ []) (hw : ∀ m ∈ ms, 0 < m.weight)
    (hf : ∀ m ∈ ms, lo ≤ f m ∧ f m ≤ hi) :
    lo ≤ weightedRatio ms f ∧ weightedRatio ms f ≤ hi := by
  have hW : 0 < availSum ms := availSum_pos hne hw
  have hw0 : ∀ m ∈ ms, 0 ≤ m.weight := fun m hm => le_of_lt (hw m hm)
  have hrw : weightedRatio ms f = (ms.map fun m => f m * m.weight).sum / availSum ms := by
    unfold weightedRatio
    exact sum_map_div ms (fun m => f m * m.weight) (availSum ms)
  constructor
  · rw [hrw, le_div_iff₀ hW]
    exact sum_weighted_ge f lo hw0 fun m hm => (hf m hm).1
  · rw [hrw, div_le_iff₀ hW]
    exact sum_weighted_le f hi hw0 fun m hm => (hf m hm).2

lemma min_range (lo hi a b : ℚ) (ha : lo ≤ a) (hb : lo ≤ b) (hbhi : b ≤ hi) :
    lo ≤ min a b ∧ min a b ≤ hi :=
  ⟨le_min ha hb, le_trans (min_le_right a b) hbhi⟩

lemma extractTextScore_range (e : MultiModalFusionEngine) (t : TextPayload)
    (h : textContractOK (some t) = true) :
    0 ≤ (extractTextScore e t).score ∧ (extractTextScore e t).score ≤ 100 ∧
    0 ≤ (extractTextScore e t).confidence ∧ (extractTextScore e t).confidence ≤ 1 := by
  cases hml : t.mlPrediction with
  | some ml =>
      simp only [textContractOK, hml, Bool.and_eq_true] at h
      obtain ⟨hp, hc⟩ := h
      have hfp := inRangeB_getD 0 1 0.5 hp (by norm_num) (by norm_num)
      have hcc := inRangeB_getD 0 1 0.5 hc (by norm_num) (by norm_num)
      have hs0 : 0 ≤ (1 - ml.fakeProbability.getD 0.5) * 100 := by nlinarith [hfp.1, hfp.2]
      have hs100 : (1 - ml.fakeProbability.getD 0.5) * 100 ≤ 100 := by nlinarith [hfp.1, hfp.2]
      have hb1 := min_range 0 100 ((1 - ml.fakeProbability.getD 0.5) * 100 + 5) 100
        (by linarith) (by norm_num) (by norm_num)
      have hb2 := min_range 0 1 (ml.confidence.getD 0.5 + 0.1) 0.95
        (by linarith [hcc.1]) (by norm_num) (by norm_num)
      simp only [extractTextScore, hml]
      split_ifs with h1 h2
      · exact ⟨hb1.1, hb1.2, hb2.1, hb2.2⟩
      · exact ⟨hb1.1, hb1.2, hcc.1, hcc.2⟩
      · exact ⟨hs0, hs100, hb2.1, hb2.2⟩
      · exact ⟨hs0, hs100, hcc.1, hcc.2⟩
  | none =>
      have hm : (0:ℚ) ≤ (t.manipulationIndicatorCount : ℚ) := Nat.cast_nonneg _
      have hm12 : (0:ℚ) ≤ (t.manipulationIndicatorCount : ℚ) * 12 := by positivity
      have hm05 : (0:ℚ) ≤ (t.manipulationIndicatorCount : ℚ) * 0.05 := by positivity
      have hcmin := min_range 0 0.25 ((t.manipulationIndicatorCount : ℚ) * 0.05) 0.25
        hm05 (by norm_num) (by norm_num)
      simp only [extractTextScore, hml]
      cases hs : t.sentimentCompound with
      | some c =>
          simp only [hs]
          split_ifs with h1
          · exact ⟨le_trans (by norm_num) (le_max_left _ _),
              max_le (by norm_num) (by linarith),
              by linarith [hcmin.1], by linarith [hcmin.2]⟩
          · exact ⟨le_trans (by norm_num) (le_max_left _ _),
              max_le (by norm_num) (by linarith),
              by linarith [hcmin.1], by linarith [hcmin.2]⟩
      | none =>
          simp only [hs]
          exact ⟨le_trans (by norm_num) (le_max_left _ _),
            max_le (by norm_num) (by linarith),
            by linarith [hcmin.1], by linarith [hcmin.2]⟩

lemma extractAudioScore_range (e : MultiModalFusionEngine) (a : AudioPayload)
    (h : audioContractOK (some a) = true) :
    0 ≤ (extractAudioScore e a).score ∧ (extractAudioScore e a).score ≤ 100 ∧
    0 ≤ (extractAudioScore e a).confidence ∧ (extractAudioScore e a).confidence ≤ 1 := by
  cases hdf : a.deepfakeDetection with
  | some df =>
      simp only [audioContractOK, dfContractOK, hdf, Bool.and_eq_true] at h
      obtain ⟨hauth, hconf⟩ := h
      have hA := inRangeB_getD 0 100 50 hauth (by norm_num) (by norm_num)
      have hC := inRangeB_getD 0 1 0.5 hconf (by norm_num) (by norm_num)
      have hsc : (0:ℚ) ≤ ((df.indicators.filter isSevereIndicator).length : ℚ) :=
        Nat.cast_nonneg _
      have hb := min_range 0 1
        (df.confidence.getD 0.5 +
          ((df.indicators.filter isSevereIndicator).length : ℚ) * 0.08)
        0.92 (by nlinarith [hC.1]) (by norm_num) (by norm_num)
      simp only [extractAudioScore, hdf]
      split_ifs with h1
      · exact ⟨hA.1, hA.2, hb.1, hb.2⟩
      · exact ⟨hA.1, hA.2, hC.1, hC.2⟩
  | none =>
      simp only [extractAudioScore, hdf]
      split_ifs <;> norm_num

lemma extractVideoScore_range (e : MultiModalFusionEngine) (v : VideoPayload)
    (h : videoContractOK (some v) = true) :
    0 ≤ (extractVideoScore e v).score ∧ (extractVideoScore e v).score ≤ 100 ∧
    0 ≤ (extractVideoScore e v).confidence ∧ (extractVideoScore e v).confidence ≤ 1 := by
  cases hdf : v.deepfakeDetection with
  | some df =>
      simp only [videoContractOK, dfContractOK, hdf, Bool.and_eq_true] at h
      obtain ⟨hauth, hconf⟩ := h
      have hA := inRangeB_getD 0 100 50 hauth (by norm_num) (by norm_num)
      have hC := inRangeB_getD 0 1 0.5 hconf (by norm_num) (by norm_num)
      have hsc : (0:ℚ) ≤ ((df.indicators.filter isSevereIndicator).length : ℚ) :=
        Nat.cast_nonneg _
      have hb1 := min_range 0 1
        (df.confidence.getD 0.5 +
          ((df.indicators.filter isSevereIndicator).length : ℚ) * 0.07)
        0.88 (by nlinarith [hC.1]) (by norm_num) (by norm_num)
      simp only [extractVideoScore, hdf]
      split_ifs with h1 h2
      · refine ⟨hA.1, hA.2, ?_, ?_⟩
        · exact (min_range 0 1 _ _ (by linarith [hb1.1]) (by norm_num)
            (by norm_num)).1
        · exact (min_range 0 1 _ _ (by linarith [hb1.1]) (by norm_num)
            (by norm_num)).2
      · refine ⟨hA.1, hA.2, ?_, ?_⟩
        · exact (min_range 0 1 _ _ (by linarith [hC.1]) (by norm_num)
            (by norm_num)).1
        · exact (min_range 0 1 _ _ (by linarith [hC.1]) (by norm_num)
            (by norm_num)).2
      · exact ⟨hA.1, hA.2, hb1.1, hb1.2⟩
      · exact ⟨hA.1, hA.2, hC.1, hC.2⟩
  | none =>
      simp only [extractVideoScore, hdf]
      split_ifs <;> norm_num

lemma extractTextScore_weight (e : MultiModalFusionEngine) (t : TextPayload) :
    (extractTextScore e t).weight = e.weights.text.getD 0.33 := by
  unfold extractTextScore
  cases t.mlPrediction <;> rfl

lemma extractAudioScore_weight (e : MultiModalFusionEngine) (a : AudioPayload) :
    (extractAudioScore e a).weight = e.weights.audio.getD 0.33 := by
  unfold extractAudioScore
  cases a.deepfakeDetection <;> rfl

lemma extractVideoScore_weight (e : MultiModalFusionEngine) (v : VideoPayload) :
    (extractVideoScore e v).weight = e.weights.video.getD 0.33 := by
  unfold extractVideoScore
  cases v.deepfakeDetection <;> rfl

lemma mem_modalitiesOf {e : MultiModalFusionEngine} {t : Option TextPayload}
    {a : Option AudioPayload} {v : Option VideoPayload} {p : ModalityType × MScore}
    (hp : p ∈ modalitiesOf e t a v) :
    (∃ tp, t = some tp ∧ p = (ModalityType.text, extractTextScore e tp)) ∨
    (∃ ap, a = some ap ∧ p = (ModalityType.audio, extractAudioScore e ap)) ∨
    (∃ vp, v = some vp ∧ p = (ModalityType.video, extractVideoScore e vp)) := by
  unfold modalitiesOf at hp
  rw [List.mem_append, List.mem_append] at hp
  rcases hp with (hp | hp) | hp
  · refine Or.inl ?_
    rcases t with _ | tp
    · simp at hp
    · by_cases h : tp.truthy <;> simp [h] at hp
      exact ⟨tp, rfl, hp⟩
  · refine Or.inr (Or.inl ?_)
    rcases a with _ | ap
    · simp at hp
    · by_cases h : ap.truthy <;> simp [h] at hp
      exact ⟨ap, rfl, hp⟩
  · refine Or.inr (Or.inr ?_)
    rcases v with _ | vp
    · simp at hp
    · by_cases h : vp.truthy <;> simp [h] at hp
      exact ⟨vp, rfl, hp⟩

lemma modalities_bounds {e : MultiModalFusionEngine} {t : Option TextPayload}
    {a : Option AudioPayload} {v : Option VideoPayload}
    (ht : textContractOK t = true) (ha : audioContractOK a = true)
    (hv : videoContractOK v = true) (hw : weightsPos e.weights = true) :
    ∀ m ∈ (modalitiesOf e t a v).map (fun p => p.2),
      (0 ≤ m.score ∧ m.score ≤ 100) ∧ (0 ≤ m.confidence ∧ m.confidence ≤ 1) ∧
        0 < m.weight := by
  simp only [weightsPos, Bool.and_eq_true] at hw
  intro m hm
  obtain ⟨p, hp, rfl⟩ := List.mem_map.mp hm
  rcases mem_modalitiesOf hp with ⟨tp, rfl, rfl⟩ | ⟨ap, rfl, rfl⟩ | ⟨vp, rfl, rfl⟩
  · have hr := extractTextScore_range e tp ht
    have hwp : 0 < (extractTextScore e tp).weight := by
      rw [extractTextScore_weight]
      exact optPosB_getD hw.1.1 (by norm_num)
    exact ⟨⟨hr.1, hr.2.1⟩, ⟨hr.2.2.1, hr.2.2.2⟩, hwp⟩
  · have hr := extractAudioScore_range e ap ha
    have hwp : 0 < (extractAudioScore e ap).weight := by
      rw [extractAudioScore_weight]
      exact optPosB_getD hw.1.2 (by norm_num)
    exact ⟨⟨hr.1, hr.2.1⟩, ⟨hr.2.2.1, hr.2.2.2⟩, hwp⟩
  · have hr := extractVideoScore_range e vp hv
    have hwp : 0 < (extractVideoScore e vp).weight := by
      rw [extractVideoScore_weight]
      exact optPosB_getD hw.2 (by norm_num)
    exact ⟨⟨hr.1, hr.2.1⟩, ⟨hr.2.2.1, hr.2.2.2⟩, hwp⟩

lemma weightedAverageFusion_range {ms : List MScore} (hne : ms ≠ [])
    (hb : ∀ m ∈ ms, (0 ≤ m.score ∧ m.score ≤ 100) ∧
      (0 ≤ m.confidence ∧ m.confidence ≤ 1) ∧ 0 < m.weight) :
    (0 ≤ (weightedAverageFusion ms).1 ∧ (weightedAverageFusion ms).1 ≤ 100) ∧
      0 ≤ (weightedAverageFusion ms).2 ∧ (weightedAverageFusion ms).2 ≤ 1 := by
  have hwp : ∀ m ∈ ms, 0 < m.weight := fun m hm => (hb m hm).2.2
  have hsc := weightedRatio_bounds (fun m => m.score) 0 100 hne hwp
    fun m hm => (hb m hm).1
  have hcf := weightedRatio_bounds (fun m => m.confidence) 0 1 hne hwp
    fun m hm => (hb m hm).2.1
  have hsc2 : 0 ≤ rawWeightedScore ms ∧ rawWeightedScore ms ≤ 100 := hsc
  have hcf2 : 0 ≤ rawWeightedConfidence ms ∧ rawWeightedConfidence ms ≤ 1 := hcf
  unfold weightedAverageFusion
  dsimp only
  split_ifs <;> dsimp only
  · exact ⟨⟨hsc2.1, hsc2.2⟩,
      (min_range 0 1 _ _ (by linarith [hcf2.1]) (by norm_num) (by norm_num)).1,
      (min_range 0 1 _ _ (by linarith [hcf2.1]) (by norm_num) (by norm_num)).2⟩
  · refine ⟨⟨hsc2.1, hsc2.2⟩, le_trans (by norm_num) (le_max_right _ _), max_le ?_ (by norm_num)⟩
    linarith [hcf2.2]
  · exact ⟨⟨hsc2.1, hsc2.2⟩, hcf2.1, hcf2.2⟩
  · exact ⟨⟨hsc2.1, hsc2.2⟩, hcf2.1, hcf2.2⟩

lemma argmaxScore_mem : ∀ {ms : List MScore} {m : MScore},
    argmaxScore ms = some m → m ∈ ms := by
  intro ms
  induction ms with
  | nil => intro m h; simp [argmaxScore] at h
  | cons x l ih =>
      intro m h
      unfold argmaxScore at h
      rcases hl : argmaxScore l with _ | m2 <;> rw [hl] at h <;> dsimp only at h
      · simp at h
        simp [h]
      · split_ifs at h <;> simp at h
        · exact List.mem_cons_of_mem x (ih (h ▸ hl))
        · simp [h]

lemma argminScore_mem : ∀ {ms : List MScore} {m : MScore},
    argminScore ms = some m → m ∈ ms := by
  intro ms
  induction ms with
  | nil => intro m h; simp [argminScore] at h
  | cons x l ih =>
      intro m h
      unfold argminScore at h
      rcases hl : argminScore l with _ | m2 <;> rw [hl] at h <;> dsimp only at h
      · simp at h
        simp [h]
      · split_ifs at h <;> simp at h
        · exact List.mem_cons_of_mem x (ih (h ▸ hl))
        · simp [h]

lemma maximumFusion_range {ms : List MScore}
    (hb : ∀ m ∈ ms, (0 ≤ m.score ∧ m.score ≤ 100) ∧
      (0 ≤ m.confidence ∧ m.confidence ≤ 1) ∧ 0 < m.weight) :
    (0 ≤ (maximumFusion ms).1 ∧ (maximumFusion ms).1 ≤ 100) ∧
      0 ≤ (maximumFusion ms).2 ∧ (maximumFusion ms).2 ≤ 1 := by
  unfold maximumFusion
  rcases hm : argmaxScore ms with _ | m
  · norm_num
  · have hmem := argmaxScore_mem hm
    have := hb m hmem
    exact ⟨⟨this.1.1, this.1.2⟩, this.2.1.1, this.2.1.2⟩

lemma minimumFusion_range {ms : List MScore}
    (hb : ∀ m ∈ ms, (0 ≤ m.score ∧ m.score ≤ 100) ∧
      (0 ≤ m.confidence ∧ m.confidence ≤ 1) ∧ 0 < m.weight) :
    (0 ≤ (minimumFusion ms).1 ∧ (minimumFusion ms).1 ≤ 100) ∧
      0 ≤ (minimumFusion ms).2 ∧ (minimumFusion ms).2 ≤ 1 := by
  unfold minimumFusion
  rcases hm : argminScore ms with _ | m
  · norm_num
  · have hmem := argminScore_mem hm
    have := hb m hmem
    exact ⟨⟨this.1.1, this.1.2⟩, this.2.1.1, this.2.1.2⟩

lemma sum_confidence_le_length {ms : List MScore}
    (hb : ∀ m ∈ ms, m.confidence ≤ 1) :
    (ms.map fun m => m.confidence).sum ≤ (ms.length : ℚ) := by
  induction ms with
  | nil => simp
  | cons x l ih =>
      have h1 := hb x (List.mem_cons_self x l)
      have h2 := ih fun m hm => hb m (List.mem_cons_of_mem x hm)
      simp only [List.map_cons, List.sum_cons, List.length_cons]
      push_cast
      linarith

lemma sum_confidence_nonneg {ms : List MScore}
    (hb : ∀ m ∈ ms, 0 ≤ m.confidence) :
    0 ≤ (ms.map fun m => m.confidence).sum := by
  induction ms with
  | nil => simp
  | cons x l ih =>
      have h1 := hb x (List.mem_cons_self x l)
      have h2 := ih fun m hm => hb m (List.mem_cons_of_mem x hm)
      simp only [List.map_cons, List.sum_cons]
      linarith

lemma votingFusion_range {ms : List MScore} (hne : ms ≠ [])
    (hb : ∀ m ∈ ms, (0 ≤ m.score ∧ m.score ≤ 100) ∧
      (0 ≤ m.confidence ∧ m.confidence ≤ 1) ∧ 0 < m.weight) :
    (0 ≤ (votingFusion ms).1 ∧ (votingFusion ms).1 ≤ 100) ∧
      0 ≤ (votingFusion ms).2 ∧ (votingFusion ms).2 ≤ 1 := by
  have hn : 0 < (ms.length : ℚ) := by
    have := List.length_pos.mpr hne
    exact_mod_cast this
  have hS1 := sum_confidence_le_length fun m hm => (hb m hm).2.1.2
  have hS0 := sum_confidence_nonneg fun m hm => (hb m hm).2.1.1
  unfold votingFusion
  dsimp only
  refine ⟨⟨?_, ?_⟩, ?_, ?_⟩
  · split_ifs <;> norm_num
  · split_ifs <;> norm_num
  · exact div_nonneg hS0 (le_of_lt hn)
  · rw [div_le_one hn]
    exact hS1

lemma applyStrategy_range (strategy : FusionStrategy) {ms : List MScore}
    (hne : ms ≠ [])
    (hb : ∀ m ∈ ms, (0 ≤ m.score ∧ m.score ≤ 100) ∧
      (0 ≤ m.confidence ∧ m.confidence ≤ 1) ∧ 0 < m.weight) :
    (0 ≤ (applyStrategy strategy ms).1 ∧ (applyStrategy strategy ms).1 ≤ 100) ∧
      0 ≤ (applyStrategy strategy ms).2 ∧ (applyStrategy strategy ms).2 ≤ 1 := by
  cases strategy with
  | weightedAverage => exact weightedAverageFusion_range hne hb
  | maximum => exact maximumFusion_range hb
  | minimum => exact minimumFusion_range hb
  | voting => exact votingFusion_range hne hb
  | learned => exact weightedAverageFusion_range hne hb

/-! Claim theorems. -/

/-- C2: the verdict is a pure two-input decision table: confidence
below the threshold (default 0.5) gives UNCERTAIN regardless of score;
otherwise score at least 70 gives REAL, score at most 30 gives FAKE,
and anything strictly between gives UNCERTAIN; in particular
(75, 0.6) is REAL, (20, 0.6) is FAKE, (50, 0.6) is UNCERTAIN and
(90, 0.3) is UNCERTAIN. -/
theorem claim2_verdict_decision_table (th score confidence : ℚ) :
    (confidence < th → determineVerdict th score confidence = "UNCERTAIN") ∧
    (th ≤ confidence → 70 ≤ score → determineVerdict th score confidence = "REAL") ∧
    (th ≤ confidence → score ≤ 30 → determineVerdict th score confidence = "FAKE") ∧
    (th ≤ confidence → 30 < score → score < 70 →
      determineVerdict th score confidence = "UNCERTAIN") ∧
    determineVerdict 0.5 75 0.6 = "REAL" ∧
    determineVerdict 0.5 20 0.6 = "FAKE" ∧
    determineVerdict 0.5 50 0.6 = "UNCERTAIN" ∧
    determineVerdict 0.5 90 0.3 = "UNCERTAIN" := by
  refine ⟨?_, ?_, ?_, ?_, by norm_num [determineVerdict], by norm_num [determineVerdict],
    by norm_num [determineVerdict], by norm_num [determineVerdict]⟩
  · intro h
    simp [determineVerdict, h]
  · intro h1 h2
    simp [determineVerdict, not_lt.mpr h1, h2]
  · intro h1 h2
    have h3 : ¬ (70 ≤ score) := not_le.mpr (by linarith)
    simp [determineVerdict, not_lt.mpr h1, h3, h2]
  · intro h1 h2 h3
    have h4 : ¬ (70 ≤ score) := not_le.mpr h3
    have h5 : ¬ (score ≤ 30) := not_le.mpr h2
    simp [determineVerdict, not_lt.mpr h1, h4, h5]

/-- Witness for C2 at (75, 0.6) with the default threshold. -/
theorem claim2_witness : determineVerdict 0.5 75 0.6 = "REAL" :=
  (claim2_verdict_decision_table 0.5 75 0.6).2.1 (by norm_num) (by norm_num)

/-- C5: fuse with all three payloads absent is not an error and
returns the fixed neutral result: final score 50, verdict UNCERTAIN,
confidence 0, no contributions, and the canned no-data explanation. -/
theorem claim5_no_data_neutral_result (e : MultiModalFusionEngine) :
    fuse e none none none = noDataResult e ∧
    (fuse e none none none).finalScore = 50 ∧
    (fuse e none none none).finalVerdict = "UNCERTAIN" ∧
    (fuse e none none none).confidence = 0 ∧
    (fuse e none none none).modalityContributions = [] ∧
    (fuse e none none none).explanation =
      ⟨"No analysis data available", "UNCERTAIN", "None",
        "Unable to analyze - no data provided"⟩ :=
  ⟨rfl, rfl, rfl, rfl, rfl, rfl⟩

/-- C10: with an existing instance and force_reload false, the
accessor returns that instance unchanged, ignoring the strategy and
weights arguments; a construction happens only when no instance exists
or force_reload is set. -/
theorem claim10_singleton_reuse (e : MultiModalFusionEngine)
    (strategy : FusionStrategy) (weights : Option WeightConfig) :
    getFusionEngine (some e) strategy weights false = some (e, some e) ∧
    (∀ b, getFusionEngine none strategy weights b =
      (mkEngine strategy weights 0.5).map fun e2 => (e2, some e2)) ∧
    getFusionEngine (some e) strategy weights true =
      (mkEngine strategy weights 0.5).map fun e2 => (e2, some e2) :=
  ⟨rfl, fun _ => rfl, rfl⟩

/-- C7: for a text payload without a model prediction block, the
fallback score is max(10, 65 - 12m) with a further -8 penalty folded
into the subtrahend when the sentiment compound magnitude exceeds 0.8,
and the confidence is 0.55 + min(0.05 m, 0.25). -/
theorem claim7_text_fallback_formula (e : MultiModalFusionEngine) (t : TextPayload)
    (hml : t.mlPrediction = none) :
    ((∀ c, t.sentimentCompound = some c → 0.8 < |c| →
        (extractTextScore e t).score =
          max 10 (65 - ((t.manipulationIndicatorCount : ℚ) * 12 + 8))) ∧
     (∀ c, t.sentimentCompound = some c → |c| ≤ 0.8 →
        (extractTextScore e t).score =
          max 10 (65 - (t.manipulationIndicatorCount : ℚ) * 12)) ∧
     (t.sentimentCompound = none →
        (extractTextScore e t).score =
          max 10 (65 - (t.manipulationIndicatorCount : ℚ) * 12))) ∧
    (extractTextScore e t).confidence =
      0.55 + min ((t.manipulationIndicatorCount : ℚ) * 0.05) 0.25 := by
  refine ⟨⟨?_, ?_, ?_⟩, ?_⟩
  · intro c hc hgt
    simp only [extractTextScore, hml, hc]
    rw [if_pos hgt]
  · intro c hc hle
    simp only [extractTextScore, hml, hc]
    rw [if_neg (not_lt.mpr hle)]
  · intro hs
    simp only [extractTextScore, hml, hs]
  · cases hs : t.sentimentCompound with
    | none => simp only [extractTextScore, hml, hs]
    | some c => simp only [extractTextScore, hml, hs]

/-- Witness for C7: three manipulation indicators and compound 0.9
give score max(10, 65 - 44) = 21. -/
theorem claim7_witness :
    (extractTextScore engDefault ⟨true, none, 3, some 0.9⟩).score = 21 := by
  have h := (claim7_text_fallback_formula engDefault ⟨true, none, 3, some 0.9⟩ rfl).1.1
    0.9 rfl (by rw [abs_of_pos (by norm_num : (0:ℚ) < 0.9)]; norm_num)
  rw [h]
  norm_num

lemma wavg_eq_lowStd {ms : List MScore} (h2 : 1 < ms.length)
    (hv : scoreVariance (ms.map fun m => m.score) < 225) :
    weightedAverageFusion ms =
      (rawWeightedScore ms, min (rawWeightedConfidence ms + 0.10) 0.95) := by
  unfold weightedAverageFusion
  dsimp only
  rw [if_pos h2, if_pos hv]

lemma wavg_eq_highStd {ms : List MScore} (h2 : 1 < ms.length)
    (hv : 1225 < scoreVariance (ms.map fun m => m.score)) :
    weightedAverageFusion ms =
      (rawWeightedScore ms, max (rawWeightedConfidence ms - 0.10) 0.35) := by
  unfold weightedAverageFusion
  dsimp only
  rw [if_pos h2, if_neg (not_lt.mpr (by linarith)), if_pos hv]

lemma wavg_eq_midStd {ms : List MScore} (h2 : 1 < ms.length)
    (hv1 : 225 ≤ scoreVariance (ms.map fun m => m.score))
    (hv2 : scoreVariance (ms.map fun m => m.score) ≤ 1225) :
    weightedAverageFusion ms = (rawWeightedScore ms, rawWeightedConfidence ms) := by
  unfold weightedAverageFusion
  dsimp only
  rw [if_pos h2, if_neg (not_lt.mpr hv1), if_neg (not_lt.mpr hv2)]

lemma wavg_eq_single {ms : List MScore} (h1 : ¬ 1 < ms.length) :
    weightedAverageFusion ms = (rawWeightedScore ms, rawWeightedConfidence ms) := by
  unfold weightedAverageFusion
  dsimp only
  rw [if_neg h1]

/-- C3: with at least two modalities the consistency adjustment of the
weighted-average strategy turns the weight-renormalized confidence c
into min(c + 0.10, 0.95) when the score standard deviation is below 15
(encoded as variance < 225), into max(c - 0.10, 0.35) when it exceeds
35 (variance > 1225), and leaves it unchanged in between; with exactly
one modality no adjustment is applied. -/
theorem claim3_consistency_adjustment (ms : List MScore) :
    (2 ≤ ms.length →
      (scoreVariance (ms.map fun m => m.score) < 225 →
        (weightedAverageFusion ms).2 = min (rawWeightedConfidence ms + 0.10) 0.95) ∧
      (1225 < scoreVariance (ms.map fun m => m.score) →
        (weightedAverageFusion ms).2 = max (rawWeightedConfidence ms - 0.10) 0.35) ∧
      (225 ≤ scoreVariance (ms.map fun m => m.score) →
        scoreVariance (ms.map fun m => m.score) ≤ 1225 →
        (weightedAverageFusion ms).2 = rawWeightedConfidence ms)) ∧
    (ms.length = 1 → (weightedAverageFusion ms).2 = rawWeightedConfidence ms) := by
  constructor
  · intro h2
    exact ⟨fun hv => by rw [wavg_eq_lowStd h2 hv],
      fun hv => by rw [wavg_eq_highStd h2 hv],
      fun hv1 hv2 => by rw [wavg_eq_midStd h2 hv1 hv2]⟩
  · intro h1
    rw [wavg_eq_single (by omega)]

/-- Witness for C3: equal-weight scores 90 and 92 (variance 1 < 225)
give the boosted-and-capped confidence. -/
theorem claim3_witness :
    (weightedAverageFusion [⟨90, 1/2, 1/2⟩, ⟨92, 1/2, 1/2⟩]).2 =
      min (rawWeightedConfidence [⟨90, 1/2, 1/2⟩, ⟨92, 1/2, 1/2⟩] + 0.10) 0.95 :=
  ((claim3_consistency_adjustment [⟨90, 1/2, 1/2⟩, ⟨92, 1/2, 1/2⟩]).1 (by norm_num)).1
    (by norm_num [scoreVariance])

/-- C9: in the high-disagreement branch (variance > 1225, i.e. score
standard deviation above 35) the returned confidence is never below
0.35, and when the unadjusted weighted confidence is below 0.35 the
branch raises it to exactly 0.35 instead of reducing it. -/
theorem claim9_disagreement_floor (ms : List MScore) (h2 : 2 ≤ ms.length)
    (hv : 1225 < scoreVariance (ms.map fun m => m.score)) :
    0.35 ≤ (weightedAverageFusion ms).2 ∧
    (rawWeightedConfidence ms < 0.35 →
      (weightedAverageFusion ms).2 = 0.35 ∧
      rawWeightedConfidence ms < (weightedAverageFusion ms).2) := by
  have heq : (weightedAverageFusion ms).2 =
      max (rawWeightedConfidence ms - 0.10) 0.35 := by
    rw [wavg_eq_highStd h2 hv]
  rw [heq]
  refine ⟨le_max_right _ _, fun hlt => ?_⟩
  rw [max_eq_right (by linarith)]
  exact ⟨rfl, by linarith⟩

/-- Witness for C9: scores 0 and 100 (variance 2500) with unadjusted
confidence 0.1 floor at 0.35. -/
theorem claim9_witness :
    (0.35 : ℚ) ≤ (weightedAverageFusion [⟨0, 1/10, 1/2⟩, ⟨100, 1/10, 1/2⟩]).2 :=
  (claim9_disagreement_floor [⟨0, 1/10, 1/2⟩, ⟨100, 1/10, 1/2⟩] (by norm_num)
    (by norm_num [scoreVariance])).1

/-- C4: a fuse call under the weighted-average strategy whose collected
modality list is a single triple returns exactly that triple as score
and confidence (the lone weight renormalizes to one and no consistency
adjustment is applied). -/
theorem claim4_single_modality_exact (e : MultiModalFusionEngine)
    (t : Option TextPayload) (a : Option AudioPayload) (v : Option VideoPayload)
    (tag : ModalityType) (m : MScore)
    (hstrat : e.strategy = FusionStrategy.weightedAverage)
    (hms : modalitiesOf e t a v = [(tag, m)])
    (hw : m.weight ≠ 0) :
    (fuse e t a v).finalScore = m.score ∧ (fuse e t a v).confidence = m.confidence := by
  have h1 : weightedAverageFusion [m] = (m.score, m.confidence) := by
    rw [wavg_eq_single (by norm_num)]
    unfold rawWeightedScore rawWeightedConfidence weightedRatio availSum
    simp [mul_div_assoc, div_self hw]
  unfold fuse
  rw [hms]
  simp [applyStrategy, hstrat, h1]

/-- Witness for C4: a lone text payload with model score 80 and
confidence 0.7 fuses to exactly (80, 0.7). -/
theorem claim4_witness :
    (fuse engDefault (some ⟨true, some ⟨some 0.2, some 0.7, none, none⟩, 0, none⟩)
        none none).finalScore = 80 ∧
    (fuse engDefault (some ⟨true, some ⟨some 0.2, some 0.7, none, none⟩, 0, none⟩)
        none none).confidence = 0.7 := by
  have h := claim4_single_modality_exact engDefault
    (some ⟨true, some ⟨some 0.2, some 0.7, none, none⟩, 0, none⟩) none none
    ModalityType.text ⟨80, 0.7, 0.45⟩ rfl
    (by norm_num [modalitiesOf, extractTextScore, engDefault, defaultWeights])
    (by norm_num)
  exact ⟨by rw [h.1], by rw [h.2]⟩

lemma valuesSum_mapVals_div (w : WeightConfig) (s : ℚ) :
    (w.mapVals (· / s)).valuesSum = w.valuesSum / s := by
  rcases w with ⟨t, a, v⟩
  rcases t with _ | x <;> rcases a with _ | y <;> rcases v with _ | z <;>
    simp [WeightConfig.mapVals, WeightConfig.valuesSum, add_div]

/-- C6 (amended): construction fails exactly when the effective weight
values sum to zero (the normalizing division raises at construction
time); every other configuration — including one with a negative sum —
constructs successfully, and the stored weights then sum to 1 within
the np.isclose tolerance. -/
theorem claim6_construction_characterization (strategy : FusionStrategy)
    (weights : Option WeightConfig) (th : ℚ) :
    (mkEngine strategy weights th = none ↔ (effectiveWeights weights).valuesSum = 0) ∧
    (∀ e, mkEngine strategy weights th = some e →
      |e.weights.valuesSum - 1| ≤ 1001 / 100000000) := by
  unfold mkEngine
  dsimp only
  by_cases hclose : npIsCloseOne (effectiveWeights weights).valuesSum
  · rw [if_pos hclose]
    have htol : |(effectiveWeights weights).valuesSum - 1| ≤ 1001 / 100000000 := by
      simpa [npIsCloseOne] using hclose
    constructor
    · constructor
      · intro h
        simp at h
      · intro h0
        rw [h0] at htol
        norm_num at htol
    · intro e he
      rw [Option.some.injEq] at he
      subst he
      exact htol
  · rw [if_neg hclose]
    by_cases h0 : (effectiveWeights weights).valuesSum = 0
    · rw [if_pos h0]
      exact ⟨by simp [h0], fun e he => by simp at he⟩
    · rw [if_neg h0]
      constructor
      · simp [h0]
      · intro e he
        rw [Option.some.injEq] at he
        subst he
        show |(WeightConfig.mapVals _ _).valuesSum - 1| ≤ _
        rw [valuesSum_mapVals_div, div_self h0]
        norm_num

/-- Counterexample to C6: the all-negative configuration
(-0.45, -0.30, -0.25), whose sum -1 is non-positive, is not rejected;
construction succeeds and normalization flips the signs. -/
theorem claim6_counterexample :
    (⟨some (-0.45), some (-0.30), some (-0.25)⟩ : WeightConfig).valuesSum < 0 ∧
    mkEngine FusionStrategy.weightedAverage
        (some ⟨some (-0.45), some (-0.30), some (-0.25)⟩) 0.5 =
      some ⟨FusionStrategy.weightedAverage, ⟨some 0.45, some 0.30, some 0.25⟩, 0.5⟩ := by
  have hw : effectiveWeights (some ⟨some (-0.45), some (-0.30), some (-0.25)⟩) =
      ⟨some (-0.45), some (-0.30), some (-0.25)⟩ := by
    unfold effectiveWeights
    dsimp only
    rw [if_neg (by simp)]
  have hsum : (⟨some (-0.45), some (-0.30), some (-0.25)⟩ : WeightConfig).valuesSum = -1 := by
    norm_num [WeightConfig.valuesSum]
  constructor
  · rw [hsum]
    norm_num
  · unfold mkEngine
    dsimp only
    rw [hw, hsum]
    rw [if_neg (by norm_num [npIsCloseOne]), if_neg (by norm_num)]
    simp only [WeightConfig.mapVals, Option.map_some, Option.some.injEq,
      MultiModalFusionEngine.mk.injEq, WeightConfig.mk.injEq]
    norm_num

/-- Witness for C6: weights (2, 3, 5) construct successfully and the
stored normalized weights sum to 1 within tolerance. -/
theorem claim6_witness :
    |((⟨FusionStrategy.weightedAverage, ⟨some (1/5), some (3/10), some (1/2)⟩, 1/2⟩ :
        MultiModalFusionEngine)).weights.valuesSum - 1| ≤ 1001 / 100000000 :=
  (claim6_construction_characterization FusionStrategy.weightedAverage
    (some ⟨some 2, some 3, some 5⟩) (1/2)).2
    ⟨FusionStrategy.weightedAverage, ⟨some (1/5), some (3/10), some (1/2)⟩, 1/2⟩
    (by
      have hw : effectiveWeights (some ⟨some 2, some 3, some 5⟩) =
          ⟨some 2, some 3, some 5⟩ := by
        unfold effectiveWeights
        dsimp only
        rw [if_neg (by simp)]
      have hsum : (⟨some 2, some 3, some 5⟩ : WeightConfig).valuesSum = 10 := by
        norm_num [WeightConfig.valuesSum]
      unfold mkEngine
      dsimp only
      rw [hw, hsum]
      rw [if_neg (by norm_num [npIsCloseOne]), if_neg (by norm_num)]
      simp only [WeightConfig.mapVals, Option.map_some, Option.some.injEq,
        MultiModalFusionEngine.mk.injEq, WeightConfig.mk.injEq]
      norm_num)

/-- Text payload argument was supplied and is truthy. -/
def textTruthy : Option TextPayload → Bool
  | none => false
  | some tp => tp.truthy

/-- Audio payload argument was supplied and is truthy. -/
def audioTruthy : Option AudioPayload → Bool
  | none => false
  | some ap => ap.truthy

/-- Video payload argument was supplied and is truthy. -/
def videoTruthy : Option VideoPayload → Bool
  | none => false
  | some vp => vp.truthy

lemma modalitiesOf_keys (e : MultiModalFusionEngine) (t : Option TextPayload)
    (a : Option AudioPayload) (v : Option VideoPayload) :
    (modalitiesOf e t a v).map Prod.fst =
      (if textTruthy t then [ModalityType.text] else []) ++
      (if audioTruthy a then [ModalityType.audio] else []) ++
      (if videoTruthy v then [ModalityType.video] else []) := by
  unfold modalitiesOf textTruthy audioTruthy videoTruthy
  rcases t with _ | tp <;> rcases a with _ | ap <;> rcases v with _ | vp <;>
    simp [apply_ite (List.map (Prod.fst : ModalityType × MScore → ModalityType))]

/-- C8 (amended): the modality contributions of a fuse result are keyed
by exactly the modalities whose payload argument was supplied and
truthy; a supplied empty (falsy) payload contributes nothing, exactly
like an absent one. -/
theorem claim8_contributions_truthy (e : MultiModalFusionEngine)
    (t : Option TextPayload) (a : Option AudioPayload) (v : Option VideoPayload) :
    (fuse e t a v).modalityContributions.map Prod.fst =
      (if textTruthy t then [ModalityType.text] else []) ++
      (if audioTruthy a then [ModalityType.audio] else []) ++
      (if videoTruthy v then [ModalityType.video] else []) := by
  unfold fuse
  dsimp only
  by_cases hms : modalitiesOf e t a v = []
  · rw [if_pos hms]
    have hk := modalitiesOf_keys e t a v
    rw [hms] at hk
    simpa [noDataResult] using hk
  · rw [if_neg hms]
    exact modalitiesOf_keys e t a v

/-- Counterexample to C8: a supplied non-null but empty (falsy) text
payload yields no contribution at all. -/
theorem claim8_counterexample :
    (some (⟨false, none, 0, none⟩ : TextPayload) ≠ (none : Option TextPayload)) ∧
    (fuse engDefault (some ⟨false, none, 0, none⟩) none none).modalityContributions
      = [] := by
  constructor
  · simp
  · rfl

/-- C1 (amended): on an engine whose configured per-modality weights
are all strictly positive, and for payloads meeting the §6 contracts,
every fuse call — any strategy, any subset of zero to three supplied
payloads — returns a final score in [0, 100] and a confidence in
[0, 1]. -/
theorem claim1_range_invariant_amended (e : MultiModalFusionEngine)
    (hw : weightsPos e.weights = true)
    (t : Option TextPayload) (a : Option AudioPayload) (v : Option VideoPayload)
    (ht : textContractOK t = true) (ha : audioContractOK a = true)
    (hv : videoContractOK v = true) :
    0 ≤ (fuse e t a v).finalScore ∧ (fuse e t a v).finalScore ≤ 100 ∧
      0 ≤ (fuse e t a v).confidence ∧ (fuse e t a v).confidence ≤ 1 := by
  unfold fuse
  dsimp only
  by_cases hms : modalitiesOf e t a v = []
  · rw [if_pos hms]
    norm_num [noDataResult]
  · rw [if_neg hms]
    dsimp only
    have hne : (modalitiesOf e t a v).map (fun p => p.2) ≠ [] := by
      simpa using hms
    have hb := modalities_bounds (e := e) ht ha hv hw
    have hr := applyStrategy_range e.strategy hne hb
    exact ⟨hr.1.1, hr.1.2, hr.2.1, hr.2.2⟩

/-- Witness for C1 (amended): the default engine on a single in-contract
text payload. -/
theorem claim1_witness :
    0 ≤ (fuse engDefault (some ⟨true, some ⟨some 0.2, some 0.7, none, none⟩, 0, none⟩)
        none none).finalScore ∧
    (fuse engDefault (some ⟨true, some ⟨some 0.2, some 0.7, none, none⟩, 0, none⟩)
        none none).finalScore ≤ 100 ∧
    0 ≤ (fuse engDefault (some ⟨true, some ⟨some 0.2, some 0.7, none, none⟩, 0, none⟩)
        none none).confidence ∧
    (fuse engDefault (some ⟨true, some ⟨some 0.2, some 0.7, none, none⟩, 0, none⟩)
        none none).confidence ≤ 1 :=
  claim1_range_invariant_amended engDefault
    (by norm_num [weightsPos, optPosB, engDefault, defaultWeights])
    (some ⟨true, some ⟨some 0.2, some 0.7, none, none⟩, 0, none⟩) none none
    (by norm_num [textContractOK, inRangeB]) rfl rfl

/-- Engine with the positively-summing but partially negative weight
configuration (2, -1, 0): np.isclose(2 - 1 + 0, 1) holds, so the
constructor stores it unchanged. -/
def engNeg : MultiModalFusionEngine :=
  ⟨FusionStrategy.weightedAverage, ⟨some 2, some (-1), some 0⟩, 0.5⟩

/-- In-contract text payload extracting to score 100. -/
def tpNeg : TextPayload := ⟨true, some ⟨some 0, some 0.5, none, none⟩, 0, none⟩

/-- In-contract audio payload extracting to score 0. -/
def apNeg : AudioPayload := ⟨true, some ⟨some 0, some 0.5, []⟩, none, none⟩

/-- Counterexample to C1: a positively-summing weight configuration
with a negative entry passes construction untouched, and fusing two
in-contract payloads returns final score 200, outside [0, 100]. -/
theorem claim1_counterexample :
    0 < (engNeg.weights).valuesSum ∧
    mkEngine FusionStrategy.weightedAverage (some ⟨some 2, some (-1), some 0⟩) 0.5 =
      some engNeg ∧
    textContractOK (some tpNeg) = true ∧
    audioContractOK (some apNeg) = true ∧
    (fuse engNeg (some tpNeg) (some apNeg) none).finalScore = 200 ∧
    ¬ ((fuse engNeg (some tpNeg) (some apNeg) none).finalScore ≤ 100) := by
  have hsum : (⟨some 2, some (-1), some 0⟩ : WeightConfig).valuesSum = 1 := by
    norm_num [WeightConfig.valuesSum]
  have hex1 : extractTextScore engNeg tpNeg = ⟨100, 1/2, 2⟩ := by
    dsimp only [extractTextScore, tpNeg, engNeg]
    norm_num [MScore.mk.injEq]
  have hex2 : extractAudioScore engNeg apNeg = ⟨0, 1/2, -1⟩ := by
    dsimp only [extractAudioScore, apNeg, engNeg]
    norm_num [MScore.mk.injEq]
  have hms : modalitiesOf engNeg (some tpNeg) (some apNeg) none =
      [(ModalityType.text, ⟨100, 1/2, 2⟩), (ModalityType.audio, ⟨0, 1/2, -1⟩)] := by
    unfold modalitiesOf
    dsimp only
    rw [show tpNeg.truthy = true from rfl, show apNeg.truthy = true from rfl]
    rw [hex1, hex2]
    rfl
  have hvar : scoreVariance
      ([(⟨100, 1/2, 2⟩ : MScore), ⟨0, 1/2, -1⟩].map fun m => m.score) = 2500 := by
    norm_num [scoreVariance]
  have hsc : rawWeightedScore [(⟨100, 1/2, 2⟩ : MScore), ⟨0, 1/2, -1⟩] = 200 := by
    norm_num [rawWeightedScore, weightedRatio, availSum]
  have hcf : rawWeightedConfidence [(⟨100, 1/2, 2⟩ : MScore), ⟨0, 1/2, -1⟩] = 1/2 := by
    norm_num [rawWeightedConfidence, weightedRatio, availSum]
  have happ : applyStrategy FusionStrategy.weightedAverage
      [(⟨100, 1/2, 2⟩ : MScore), ⟨0, 1/2, -1⟩] = (200, 2/5) := by
    unfold applyStrategy weightedAverageFusion
    dsimp only
    rw [if_pos (by norm_num), hvar]
    rw [if_neg (by norm_num), if_pos (by norm_num), hsc, hcf]
    norm_num [Prod.ext_iff]
  have hfuse : (fuse engNeg (some tpNeg) (some apNeg) none).finalScore = 200 := by
    unfold fuse
    dsimp only
    rw [hms]
    rw [if_neg (by simp)]
    dsimp only [engNeg]
    rw [show [(ModalityType.text, (⟨100, 1/2, 2⟩ : MScore)),
        (ModalityType.audio, ⟨0, 1/2, -1⟩)].map (fun p => p.2) =
      [(⟨100, 1/2, 2⟩ : MScore), ⟨0, 1/2, -1⟩] from rfl]
    rw [happ]
  refine ⟨?_, ?_, ?_, ?_, hfuse, ?_⟩
  · show 0 < (⟨some 2, some (-1), some 0⟩ : WeightConfig).valuesSum
    rw [hsum]
    norm_num
  · have hw : effectiveWeights (some ⟨some 2, some (-1), some 0⟩) =
        ⟨some 2, some (-1), some 0⟩ := by
      unfold effectiveWeights
      dsimp only
      rw [if_neg (by simp)]
    unfold mkEngine
    dsimp only
    rw [hw, hsum]
    rw [if_pos (by norm_num [npIsCloseOne])]
    rfl
  · norm_num [textContractOK, tpNeg, inRangeB]
  · norm_num [audioContractOK, dfContractOK, apNeg, inRangeB]
  · rw [hfuse]
    norm_num

end FusionSpec
